import Mathlib

/-!
Verification development for the addendumizer repository, a single
client-side view (src/src/app/page.tsx) that edits a lease addendum form
and exports the rendered page as a paginated PDF.  Numeric values are
modelled exactly as rationals; the JavaScript NaN value is modelled as
`none` in an `Option`.
-/

namespace Addendumizer

/-- Characters kept by the currency sanitizer in `toNumber` (page.tsx line 9):
the regex removes every character that is not a digit or a dot. -/
def keepChar (c : Char) : Bool := c.isDigit || c == '.'

/-- The cleaned string of page.tsx line 9: every character that is not a
digit or a dot is removed. -/
def cleanNumeric (s : String) : String := ⟨s.data.filter keepChar⟩

/-- Value of a list of decimal digit characters read left to right. -/
def digitsVal (ds : List Char) : Nat :=
  ds.foldl (fun acc c => 10 * acc + (c.toNat - 48)) 0

/-- Value of the JavaScript parseFloat call at page.tsx line 10, restricted
to its actual input alphabet (cleaned strings hold only digits and dots):
parseFloat reads the longest leading decimal literal, an optional run of
integer digits followed by an optional dot and fractional digits; when that
leading part holds no digit at all the result is NaN, modelled as `none`. -/
def parseFloatCleaned (cs : List Char) : Option ℚ :=
  let intDigits := cs.takeWhile Char.isDigit
  let rest := cs.drop intDigits.length
  match rest with
  | '.' :: rest2 =>
      let fracDigits := rest2.takeWhile Char.isDigit
      if intDigits.isEmpty && fracDigits.isEmpty then none
      else
        some ((digitsVal intDigits : ℚ) +
          (digitsVal fracDigits : ℚ) / (10 : ℚ) ^ fracDigits.length)
  | _ => if intDigits.isEmpty then none else some (digitsVal intDigits)

/-- Embeds `toNumber` (page.tsx lines 8-11): clean the raw string, return 0
for an empty cleaned string, otherwise the parseFloat value (NaN as none). -/
def toNumber (raw : String) : Option ℚ :=
  let cleaned := cleanNumeric raw
  if cleaned = "" then some 0 else parseFloatCleaned cleaned.data

/-- A string is the empty string exactly when its character list is empty. -/
lemma string_eq_empty_iff (s : String) : s = "" ↔ s.data = [] := by
  constructor
  · intro h; rw [h]
  · intro h; cases s; simp_all

/-- When parseFloat yields NaN on a nonempty cleaned string, the string must
begin with a dot (a digit head always produces a numeric value). -/
lemma parseFloatCleaned_none_head (cs : List Char) (hne : cs ≠ [])
    (hk : ∀ c ∈ cs, keepChar c = true) (h : parseFloatCleaned cs = none) :
    cs.head? = some '.' := by
  cases cs with
  | nil => exact absurd rfl hne
  | cons c rest =>
    by_cases hd : c.isDigit = true
    · exfalso
      unfold parseFloatCleaned at h
      simp only [List.takeWhile_cons, hd, if_true] at h
      split at h <;> simp_all
    · have hkc := hk c (List.mem_cons_self c rest)
      have hc : c = '.' := by
        unfold keepChar at hkc
        rcases Bool.or_eq_true_iff.mp hkc with h1 | h1
        · exact absurd h1 hd
        · exact eq_of_beq h1
      simp [hc]

/-- Number of iterations of the while loop at page.tsx lines 188-193:
starting from the current `heightLeft`, each iteration adds one page and
subtracts `pageHeight`.  In the source `pageHeight` is the fixed positive
physical page height, so the loop terminates; the model folds that
positivity into the guard to make the recursion well founded. -/
def addPageLoopCount (ph : ℚ) (heightLeft : ℚ) : ℕ :=
  if h : 0 < ph ∧ 0 < heightLeft then
    addPageLoopCount ph (heightLeft - ph) + 1
  else 0
termination_by (⌈heightLeft / ph⌉).toNat
decreasing_by
  obtain ⟨hph, hx⟩ := h
  have h1 : (0 : ℚ) < heightLeft / ph := div_pos hx hph
  have h2 : 0 < ⌈heightLeft / ph⌉ := Int.ceil_pos.mpr h1
  have h3 : (heightLeft - ph) / ph = heightLeft / ph - 1 := by
    rw [sub_div, div_self (ne_of_gt hph)]
  have h4 : ⌈(heightLeft - ph) / ph⌉ = ⌈heightLeft / ph⌉ - 1 := by
    rw [h3, Int.ceil_sub_one]
  omega

/-- Closed form of the pagination loop: with a positive page height, the
loop runs for the positive part of the ceiling of heightLeft over ph. -/
lemma addPageLoopCount_eq (ph : ℚ) (hph : 0 < ph) (x : ℚ) :
    addPageLoopCount ph x = (⌈x / ph⌉).toNat := by
  suffices H : ∀ (n : ℕ) (x : ℚ), (⌈x / ph⌉).toNat = n → addPageLoopCount ph x = n from
    H _ x rfl
  intro n
  induction n using Nat.strong_induction_on with
  | _ n ih =>
    intro x hx
    rw [addPageLoopCount]
    split
    · next h =>
      obtain ⟨_, hxpos⟩ := h
      have h1 : (0 : ℚ) < x / ph := div_pos hxpos hph
      have h2 : 0 < ⌈x / ph⌉ := Int.ceil_pos.mpr h1
      have h3 : (x - ph) / ph = x / ph - 1 := by
        rw [sub_div, div_self (ne_of_gt hph)]
      have h4 : ⌈(x - ph) / ph⌉ = ⌈x / ph⌉ - 1 := by
        rw [h3, Int.ceil_sub_one]
      have h5 : (⌈(x - ph) / ph⌉).toNat = n - 1 := by omega
      have h6 := ih (n - 1) (by omega) (x - ph) h5
      omega
    · next h =>
      push_neg at h
      have hx0 : x ≤ 0 := h hph
      have hdiv : x / ph ≤ 0 := div_nonpos_of_nonpos_of_nonneg hx0 hph.le
      have hceil : ⌈x / ph⌉ ≤ 0 := Int.ceil_le.mpr (by exact_mod_cast hdiv)
      omega

/-- Page count of the PDF built by handleDownloadPDF (page.tsx lines
179-193): the image is scaled to the page width, the first page is added
unconditionally, then the while loop adds one page per remaining
page-height of scaled image. -/
def pdfPageCount (canvasHeight canvasWidth pageWidth pageHeight : ℚ) : ℕ :=
  let imgWidth := pageWidth
  let imgHeight := canvasHeight * imgWidth / canvasWidth
  let heightLeft := imgHeight
  1 + addPageLoopCount pageHeight (heightLeft - pageHeight)

/-- The four editable currency cells of the form (page.tsx lines 103-106). -/
structure RentState where
  baseRent : ℚ
  insurance : ℚ
  rsTax : ℚ
  cam : ℚ

/-- Derived total (page.tsx lines 109-112): a memo over exactly the four
currency cells, so it is a pure function of the current state. -/
def totalRent (s : RentState) : ℚ := s.baseRent + s.insurance + s.rsTax + s.cam

/-- Setter for the base rent cell (setBaseRent). -/
def setBaseRent (v : ℚ) (s : RentState) : RentState := { s with baseRent := v }

/-- Setter for the insurance cell (setInsurance). -/
def setInsurance (v : ℚ) (s : RentState) : RentState := { s with insurance := v }

/-- Setter for the real-estate tax cell (setRsTax). -/
def setRsTax (v : ℚ) (s : RentState) : RentState := { s with rsTax := v }

/-- Setter for the CAM cell (setCam). -/
def setCam (v : ℚ) (s : RentState) : RentState := { s with cam := v }

/-- The two inline style fields of the captured DOM node that
handleDownloadPDF temporarily overrides (page.tsx lines 153-156). -/
structure NodeStyle where
  width : String
  maxWidth : String
deriving DecidableEq

/-- The view state read and written by handleDownloadPDF and by the safety
timeout effect: the capture-subtree ref (none while unmounted), the
busy/downloading flag, and the tenant name used for the file name. -/
structure ViewState where
  node : Option NodeStyle
  isDownloading : Bool
  tenantName : String
deriving DecidableEq

/-- Target layout width in CSS px for the letter page (page.tsx line 142). -/
def CSS_WIDTH : ℕ := 1006

/-- The width string written into the node style at lines 155-156, the
template literal of CSS_WIDTH followed by px. -/
def cssWidthPx : String := "1006px"

/-- Observable outcome of one run of handleDownloadPDF: the view state at
exit, the saved file name if pdf.save was reached, and whether the
html2canvas rasterization was started. -/
structure ExportResult where
  state : ViewState
  savedFile : Option String
  rasterStarted : Bool
deriving DecidableEq

/-- Shallow embedding of handleDownloadPDF (page.tsx lines 144-196), with a
parameter injecting a failure of the html2canvas call at line 161.  The
routine: aborts if the ref is empty; sets the busy flag; saves the two
style fields and forces them to the page width; awaits rasterization (the
awaits on fonts.ready and requestAnimationFrame do not change the modelled
state); on success restores the styles, builds the PDF and saves it under
the tenant-name file name.  There is no try/finally, so when html2canvas
throws, the exception propagates and the statements after line 161 -
including the style restore at lines 168-169 - never run; the busy flag is
not cleared by the routine on any path. -/
def handleDownloadPDF (s : ViewState) (rasterThrows : Bool) : ExportResult :=
  match s.node with
  | none => { state := s, savedFile := none, rasterStarted := false }
  | some node =>
    let s1 : ViewState := { s with isDownloading := true }
    let prevWidth := node.width
    let prevMaxWidth := node.maxWidth
    let node1 : NodeStyle := { width := cssWidthPx, maxWidth := cssWidthPx }
    let s2 : ViewState := { s1 with node := some node1 }
    if rasterThrows then
      { state := s2, savedFile := none, rasterStarted := true }
    else
      let node2 : NodeStyle := { width := prevWidth, maxWidth := prevMaxWidth }
      let s3 : ViewState := { s2 with node := some node2 }
      { state := s3,
        savedFile := some (s.tenantName ++ "-addendum.pdf"),
        rasterStarted := true }

/-- Delay of the safety timeout scheduled when the busy flag turns on
(page.tsx line 235). -/
def SAFETY_TIMEOUT_MS : ℕ := 3000

/-- Effect of the safety timeout firing (page.tsx lines 233-238): the
scheduled callback clears the busy flag unconditionally. -/
def safetyTimeoutFires (s : ViewState) : ViewState := { s with isDownloading := false }

/-- A custom addendum line (page.tsx line 96): a locally generated unique
token and its free text. -/
structure AddendumLine where
  id : String
  text : String
deriving DecidableEq

/-- addLine (page.tsx line 135): appends a fresh empty line; the generated
token is a parameter of the model. -/
def addLine (i : String) (lines : List AddendumLine) : List AddendumLine :=
  lines ++ [{ id := i, text := "" }]

/-- updateLine (page.tsx lines 136-137): rewrites the text of the line with
the given token, leaving every other line unchanged. -/
def updateLine (i : String) (t : String) (lines : List AddendumLine) :
    List AddendumLine :=
  lines.map fun l => if l.id = i then { l with text := t } else l

/-- removeLine (page.tsx lines 138-139): keeps exactly the lines whose
token differs from the given one. -/
def removeLine (i : String) (lines : List AddendumLine) : List AddendumLine :=
  lines.filter fun l => l.id != i

/-- What one rendered lessee signature block displays: the company name
line and the signer name line. -/
structure LesseeBlockView where
  companyName : String
  signerName : String
deriving DecidableEq

/-- The state cells feeding the signature blocks (page.tsx lines 120-125).
lesseeCompanyName2 is declared at line 121 but never rendered by either
block. -/
structure SignatureFormState where
  lesseeCompanyName : String
  lesseeCompanyName2 : String
  lesseeName : String
  lesseeName2 : String
  lesseeCount : ℕ
deriving DecidableEq

/-- Removes the quote characters rejected by the company-name sanitizer
regex at page.tsx lines 559 and 604. -/
def stripQuotes (s : String) : String :=
  ⟨s.data.filter fun c => !(c == '“' || c == '”' || c == '"')⟩

/-- Sanitizer applied by both company-name onChange handlers (page.tsx
lines 558-560 and 602-605): strip quotes, then upper-case. -/
def sanitizeCompany (v : String) : String := (stripQuotes v).toUpper

/-- Render of the first lessee block (page.tsx lines 552-593): company name
from lesseeCompanyName, signer name from lesseeName. -/
def renderLessee1 (s : SignatureFormState) : LesseeBlockView :=
  { companyName := s.lesseeCompanyName, signerName := s.lesseeName }

/-- Render of the second lessee block (page.tsx lines 595-640): only
rendered when lesseeCount = 2; company name again from lesseeCompanyName
(line 601), signer name from lesseeName2 (line 620). -/
def renderLessee2 (s : SignatureFormState) : Option LesseeBlockView :=
  if s.lesseeCount = 2 then
    some { companyName := s.lesseeCompanyName, signerName := s.lesseeName2 }
  else none

/-- onChange of the first block's company-name input (page.tsx lines
558-560): writes the shared lesseeCompanyName cell. -/
def lessee1CompanyChange (v : String) (s : SignatureFormState) : SignatureFormState :=
  { s with lesseeCompanyName := sanitizeCompany v }

/-- onChange of the second block's company-name input (page.tsx lines
602-605): writes the same shared lesseeCompanyName cell. -/
def lessee2CompanyChange (v : String) (s : SignatureFormState) : SignatureFormState :=
  { s with lesseeCompanyName := sanitizeCompany v }

/-- The two user actions that touch the lessee count: the add-LESSEE button
(handleAddLessee, page.tsx lines 198-202) and the remove button rendered
only while the count is 2 (page.tsx lines 503-506). -/
inductive LesseeEvent where
  | addLessee : LesseeEvent
  | removeLessee : LesseeEvent
deriving DecidableEq

/-- Transition of the lessee count under one event: add moves 1 to 2 and is
otherwise a no-op (the guard at line 199); remove sets the count to 1 and
its button exists only while the count is 2. -/
def lesseeCountStep (n : ℕ) : LesseeEvent → ℕ
  | LesseeEvent.addLessee => if n = 1 then 2 else n
  | LesseeEvent.removeLessee => if n = 2 then 1 else n

/-- Initial lessee count (page.tsx line 125). -/
def initialLesseeCount : ℕ := 1

/-- One step of the count transition stays in the set of one and two. -/
lemma lesseeCountStep_one_or_two (n : ℕ) (e : LesseeEvent) (h : n = 1 ∨ n = 2) :
    lesseeCountStep n e = 1 ∨ lesseeCountStep n e = 2 := by
  cases e <;> rcases h with h | h <;> simp [lesseeCountStep, h]

/-- C1: for positive captured bitmap height and width and positive page
dimensions, handleDownloadPDF emits exactly the ceiling of the scaled image
height over the page height many pages, the scaled image height being
bitmap height times page width over bitmap width; an exact multiple of the
page height gets no extra page. -/
theorem pageCount_eq_ceil (H W Pw Ph : ℚ) (hH : 0 < H) (hW : 0 < W)
    (hPw : 0 < Pw) (hPh : 0 < Ph) :
    (pdfPageCount H W Pw Ph : ℤ) = ⌈H * Pw / W / Ph⌉ := by
  have hIh : 0 < H * Pw / W := div_pos (mul_pos hH hPw) hW
  have h1 : 0 < ⌈H * Pw / W / Ph⌉ := Int.ceil_pos.mpr (div_pos hIh hPh)
  have h3 : (H * Pw / W - Ph) / Ph = H * Pw / W / Ph - 1 := by
    rw [sub_div, div_self (ne_of_gt hPh)]
  have h4 : ⌈(H * Pw / W - Ph) / Ph⌉ = ⌈H * Pw / W / Ph⌉ - 1 := by
    rw [h3, Int.ceil_sub_one]
  have h5 := addPageLoopCount_eq Ph hPh (H * Pw / W - Ph)
  simp only [pdfPageCount]
  rw [h5, h4]
  push_cast
  omega

/-- C1 witness: a bitmap of height 200 and width 100 on 100 by 100 pages
has scaled image height exactly two page heights and yields exactly 2
pages, not 3. -/
theorem pageCount_eq_ceil_witness : (pdfPageCount 200 100 100 100 : ℤ) = 2 := by
  have h := pageCount_eq_ceil 200 100 100 100 (by norm_num) (by norm_num)
    (by norm_num) (by norm_num)
  rw [h]
  norm_num

/-- C6: with nonnegative content height, the pagination never emits zero
pages and emits exactly one page per page-height window covered by content,
with at least one page: the count is the positive part of the ceiling,
clamped below by one, so zero-height content and content exactly divisible
by the page height get no spurious trailing blank page. -/
theorem pageCount_min_one (H W Pw Ph : ℚ) (_hH : 0 ≤ H) (_hW : 0 < W)
    (_hPw : 0 < Pw) (hPh : 0 < Ph) :
    0 < pdfPageCount H W Pw Ph ∧
      pdfPageCount H W Pw Ph = max 1 (⌈H * Pw / W / Ph⌉).toNat := by
  have h3 : (H * Pw / W - Ph) / Ph = H * Pw / W / Ph - 1 := by
    rw [sub_div, div_self (ne_of_gt hPh)]
  have h4 : ⌈(H * Pw / W - Ph) / Ph⌉ = ⌈H * Pw / W / Ph⌉ - 1 := by
    rw [h3, Int.ceil_sub_one]
  have h5 := addPageLoopCount_eq Ph hPh (H * Pw / W - Ph)
  simp only [pdfPageCount]
  rw [h5, h4]
  omega

/-- C6 witness: content of height 50 on 100 by 100 pages, shorter than one
page, yields a positive count equal to the clamped ceiling, namely one
page. -/
theorem pageCount_min_one_witness :
    0 < pdfPageCount 50 100 100 100 ∧
      pdfPageCount 50 100 100 100 = max 1 (⌈(50 : ℚ) * 100 / 100 / 100⌉).toNat :=
  pageCount_min_one 50 100 100 100 (by norm_num) (by norm_num) (by norm_num)
    (by norm_num)

/-- C4: the displayed total always equals baseRent + insurance + rsTax +
cam, and after any single currency-cell change the total recomputed from
the new state is the sum over the new values, so no stale total can be
read. -/
theorem totalRent_recompute (s : RentState) (v : ℚ) :
    totalRent s = s.baseRent + s.insurance + s.rsTax + s.cam ∧
    totalRent (setBaseRent v s) = v + s.insurance + s.rsTax + s.cam ∧
    totalRent (setInsurance v s) = s.baseRent + v + s.rsTax + s.cam ∧
    totalRent (setRsTax v s) = s.baseRent + s.insurance + v + s.cam ∧
    totalRent (setCam v s) = s.baseRent + s.insurance + s.rsTax + v :=
  ⟨rfl, rfl, rfl, rfl, rfl⟩

/-- C5 counterexample: the input consisting of a single dot survives the
cleaning step unchanged, so parseFloat receives a nonempty string with no
digits and yields NaN, not the numeric value zero the claim promises for
every malformed input. -/
theorem toNumber_dot_is_nan : toNumber "." = none ∧ toNumber "." ≠ some 0 := by
  have h : toNumber "." = none := rfl
  exact ⟨h, by rw [h]; simp⟩

/-- C5 amended: toNumber strips every character that is not a digit or a
dot and parses the remainder; an empty or all-stripped input yields zero
and the three example inputs parse as the claim states, but an input whose
stripped remainder is nonempty yet starts with a dot not followed by a
digit yields NaN rather than zero; NaN arises only when the stripped
remainder starts with a dot. -/
theorem toNumber_amended :
    toNumber "$1,234.56abc" = some (123456 / 100 : ℚ) ∧
    toNumber "" = some 0 ∧
    toNumber "--" = some 0 ∧
    (∀ s, cleanNumeric s = "" → toNumber s = some 0) ∧
    (∀ s, toNumber s = none → (cleanNumeric s).data.head? = some '.') := by
  refine ⟨?_, rfl, rfl, ?_, ?_⟩
  · have h : toNumber "$1,234.56abc" =
        some ((digitsVal ['1', '2', '3', '4'] : ℚ) +
          (digitsVal ['5', '6'] : ℚ) / 10 ^ (['5', '6'].length)) := rfl
    have hd1 : digitsVal ['1', '2', '3', '4'] = 1234 := rfl
    have hd2 : digitsVal ['5', '6'] = 56 := rfl
    rw [h, hd1, hd2]
    norm_num
  · intro s h
    simp [toNumber, h]
  · intro s h
    unfold toNumber at h
    by_cases hc : cleanNumeric s = ""
    · rw [if_pos hc] at h
      exact absurd h (by simp)
    · rw [if_neg hc] at h
      refine parseFloatCleaned_none_head _ ?_ ?_ h
      · intro hnil
        exact hc ((string_eq_empty_iff _).mpr hnil)
      · intro c hcmem
        have hcmem2 : c ∈ (String.mk (s.data.filter keepChar)).data := by
          simpa [cleanNumeric] using hcmem
        exact List.of_mem_filter hcmem2

/-- C5 amended witness: an input with no digit or dot at all cleans to the
empty string and parses to zero. -/
theorem toNumber_amended_witness : toNumber "xyz" = some 0 :=
  toNumber_amended.2.2.2.1 "xyz" rfl

/-- C7: when the capture-subtree ref is empty, handleDownloadPDF returns
before any effect: the view state is unchanged, no layout override is
applied, no busy-mode switch happens, no rasterization starts and no file
is saved. -/
theorem abort_when_unmounted (s : ViewState) (rt : Bool) (h : s.node = none) :
    handleDownloadPDF s rt = { state := s, savedFile := none, rasterStarted := false } := by
  simp [handleDownloadPDF, h]

/-- C7 witness: on a concrete unmounted view state the export aborts with
no output and no state change. -/
theorem abort_when_unmounted_witness :
    handleDownloadPDF { node := none, isDownloading := false, tenantName := "T" } true =
      { state := { node := none, isDownloading := false, tenantName := "T" },
        savedFile := none, rasterStarted := false } :=
  abort_when_unmounted _ true rfl

/-- C2 counterexample: starting from a mounted node whose width style is
the string auto, a throwing rasterization leaves the node at the forced
page width instead of restoring it, and leaves the busy flag set at the
routine's exit, against the claim that restoration runs on every exit
path. -/
theorem width_not_restored_on_throw :
    (handleDownloadPDF
      { node := some { width := "auto", maxWidth := "none" },
        isDownloading := false, tenantName := "T" } true).state.node ≠
      some { width := "auto", maxWidth := "none" } ∧
    (handleDownloadPDF
      { node := some { width := "auto", maxWidth := "none" },
        isDownloading := false, tenantName := "T" } true).state.isDownloading = true := by
  constructor
  · intro h
    have h2 : (some { width := cssWidthPx, maxWidth := cssWidthPx } :
        Option NodeStyle) = some { width := "auto", maxWidth := "none" } := h
    simp [cssWidthPx] at h2
  · rfl

/-- C2 amended: on the success path the width and max-width overrides are
restored to their pre-export values, but when rasterization throws they are
left at the forced page width because the routine has no try/finally; the
busy flag is not cleared by the routine on either path and returns to false
only when the safety timeout fires. -/
theorem restore_on_paths (s : ViewState) (n : NodeStyle) (h : s.node = some n) :
    (handleDownloadPDF s false).state.node = some n ∧
    (handleDownloadPDF s false).state.isDownloading = true ∧
    (handleDownloadPDF s true).state.node =
      some { width := cssWidthPx, maxWidth := cssWidthPx } ∧
    (handleDownloadPDF s true).state.isDownloading = true ∧
    (safetyTimeoutFires (handleDownloadPDF s true).state).isDownloading = false := by
  simp [handleDownloadPDF, h, safetyTimeoutFires]

/-- C2 amended witness: the success-path restoration at a concrete mounted
state. -/
theorem restore_on_paths_witness :
    (handleDownloadPDF
      { node := some { width := "auto", maxWidth := "none" },
        isDownloading := false, tenantName := "T" } false).state.node =
      some { width := "auto", maxWidth := "none" } :=
  (restore_on_paths _ { width := "auto", maxWidth := "none" } rfl).1

/-- C3 counterexample: with the busy flag already set by an export in
progress, invoking handleDownloadPDF again still starts a rasterization -
the routine never reads the flag - so a second in-flight rasterization is
not prevented. -/
theorem second_invocation_starts_raster :
    (handleDownloadPDF
      { node := some { width := "auto", maxWidth := "none" },
        isDownloading := true, tenantName := "T" } false).rasterStarted = true := rfl

/-- C3 amended: while an export runs the busy flag is set, and the safety
timeout clears it even if the export never settles; but the routine has no
re-entrancy check, so a second invocation while the flag is set does start
a second rasterization. -/
theorem busy_flag_and_timeout (s : ViewState) (n : NodeStyle) (rt : Bool)
    (h : s.node = some n) :
    (handleDownloadPDF s rt).state.isDownloading = true ∧
    (handleDownloadPDF { s with isDownloading := true } rt).rasterStarted = true ∧
    (safetyTimeoutFires (handleDownloadPDF s rt).state).isDownloading = false := by
  cases rt <;> simp [handleDownloadPDF, h, safetyTimeoutFires]

/-- C3 amended witness: the busy flag is set during a concrete export. -/
theorem busy_flag_and_timeout_witness :
    (handleDownloadPDF
      { node := some { width := "auto", maxWidth := "none" },
        isDownloading := false, tenantName := "T" } false).state.isDownloading = true :=
  (busy_flag_and_timeout _ { width := "auto", maxWidth := "none" } false rfl).1

/-- C8: removing a line by its token removes exactly the lines carrying
that token and keeps the rest as a sublist, hence in their original
relative order; updating never changes the token sequence; adding appends;
and adding three lines with distinct tokens then removing the second one
leaves exactly the first and third in order. -/
theorem removeLine_spec (id1 id2 id3 : String) (h12 : id1 ≠ id2) (h23 : id2 ≠ id3) :
    (∀ (lines : List AddendumLine) (i : String),
        (removeLine i lines).Sublist lines) ∧
    (∀ (lines : List AddendumLine) (i : String) (l : AddendumLine),
        l ∈ lines → l.id ≠ i → l ∈ removeLine i lines) ∧
    (∀ (lines : List AddendumLine) (i : String) (l : AddendumLine),
        l ∈ removeLine i lines → l ∈ lines ∧ l.id ≠ i) ∧
    (∀ (lines : List AddendumLine) (i t : String),
        (updateLine i t lines).map AddendumLine.id = lines.map AddendumLine.id) ∧
    (∀ (lines : List AddendumLine) (i : String),
        (addLine i lines).map AddendumLine.id = lines.map AddendumLine.id ++ [i]) ∧
    removeLine id2 (addLine id3 (addLine id2 (addLine id1 []))) =
      [{ id := id1, text := "" }, { id := id3, text := "" }] := by
  have h32 : id3 ≠ id2 := Ne.symm h23
  refine ⟨?_, ?_, ?_, ?_, ?_, ?_⟩
  · intro lines i
    exact List.filter_sublist lines
  · intro lines i l hl hne
    simp [removeLine, List.mem_filter, hl, hne]
  · intro lines i l hl
    rw [removeLine, List.mem_filter] at hl
    exact ⟨hl.1, by simpa using hl.2⟩
  · intro lines i t
    induction lines with
    | nil => rfl
    | cons a tl ih =>
      simp only [updateLine, List.map_cons] at ih ⊢
      rw [ih]
      by_cases ha : a.id = i <;> simp [ha]
  · intro lines i
    simp [addLine]
  · have e1 : (id1 != id2) = true := by simp [h12]
    have e2 : (id3 != id2) = true := by simp [h32]
    simp [addLine, removeLine, List.filter, e1, e2]

/-- C8 witness: the three-line scenario at concrete distinct tokens. -/
theorem removeLine_spec_witness :
    removeLine "b" (addLine "c" (addLine "b" (addLine "a" []))) =
      [{ id := "a", text := "" }, { id := "c", text := "" }] :=
  (removeLine_spec "a" "b" "c" (by decide) (by decide)).2.2.2.2.2

/-- C9: when the lessee count is 2 both signature blocks render the one
shared lesseeCompanyName cell, so they always display the same company
name, and the onChange of either block writes that same cell so a change
through one block changes both displays; the signer names come from the two
separate cells lesseeName and lesseeName2. -/
theorem sharedCompanyName (s : SignatureFormState) (v : String)
    (h : s.lesseeCount = 2) :
    renderLessee2 s =
      some { companyName := (renderLessee1 s).companyName,
             signerName := s.lesseeName2 } ∧
    renderLessee1 (lessee2CompanyChange v s) =
      { companyName := sanitizeCompany v, signerName := s.lesseeName } ∧
    renderLessee2 (lessee1CompanyChange v s) =
      some { companyName := sanitizeCompany v, signerName := s.lesseeName2 } ∧
    (renderLessee1 s).signerName = s.lesseeName ∧
    (∀ b, renderLessee2 s = some b → b.signerName = s.lesseeName2) := by
  refine ⟨?_, rfl, ?_, rfl, ?_⟩
  · simp [renderLessee2, renderLessee1, h]
  · simp [renderLessee2, lessee1CompanyChange, h]
  · intro b hb
    rw [renderLessee2, if_pos h] at hb
    cases hb
    rfl

/-- C9 witness: at a concrete state with count 2 and distinct signer names,
the second block renders the first block's company name next to its own
signer name. -/
theorem sharedCompanyName_witness :
    renderLessee2
      { lesseeCompanyName := "ACME", lesseeCompanyName2 := "",
        lesseeName := "Alice", lesseeName2 := "Bob", lesseeCount := 2 } =
      some { companyName :=
               (renderLessee1
                 { lesseeCompanyName := "ACME", lesseeCompanyName2 := "",
                   lesseeName := "Alice", lesseeName2 := "Bob",
                   lesseeCount := 2 }).companyName,
             signerName := "Bob" } :=
  (sharedCompanyName _ "" rfl).1

/-- C10: from the initial count of one, any sequence of add-LESSEE and
remove-LESSEE actions keeps the lessee count in the set of one and two. -/
theorem lesseeCount_invariant (evs : List LesseeEvent) :
    evs.foldl lesseeCountStep initialLesseeCount = 1 ∨
      evs.foldl lesseeCountStep initialLesseeCount = 2 := by
  have H : ∀ (l : List LesseeEvent) (n : ℕ), (n = 1 ∨ n = 2) →
      (l.foldl lesseeCountStep n = 1 ∨ l.foldl lesseeCountStep n = 2) := by
    intro l
    induction l with
    | nil => intro n h; simpa using h
    | cons e tl ih =>
      intro n h
      exact ih _ (lesseeCountStep_one_or_two n e h)
  exact H evs initialLesseeCount (Or.inl rfl)

end Addendumizer
